import Mathlib

/-!
Verification of the Practice14 character-catalog manager
(`src/Practice14/main.py`): a shallow embedding in Lean 4 of the
data model (`Character`), the storage layer (`DataStorage`), the
command strategies (`AddCommand`, `ShowCommand`), the dispatcher
(`CLI.exec_command` / `CLI.run`), and the import pipeline
(`ImportCommand.exec_command`), together with theorems settling the
specification's testable properties.

The external collaborators (`GenshinAPIClient`,
`GenshinCharacterParser`, imported from `api_client`) are out of
scope and are modelled abstractly: the name-listing call is a list
of strings, the detail fetch is a function
`String → Option CharacterDetail`, and the parser's conversion of a
detail plus an assigned id into a record is modelled from the spec's
collaborator contract (`parse_to_character`).
-/

namespace Practice14

/-- `Character.__init__(self, id, name, char_type, health, attack, image_url="")`:
the data-only record. Field `type` in Python is named `type` here as well;
the constructor *parameter* is `char_type`, which matters for `load`. -/
structure Character where
  id : Int
  name : String
  type : String
  health : Int
  attack : Int
  image_url : String
deriving Repr, DecidableEq

/-- JSON scalar values as they appear in the persisted file: every field of a
saved record is either an integer or a string. -/
inductive JValue where
  | jint : Int → JValue
  | jstr : String → JValue
deriving Repr, DecidableEq

/-- A JSON object: a finite map given as key/value pairs (Python `dict`
produced by `json.load`, keys unique). -/
abbrev JObject := List (String × JValue)

/-- `Character.to_dict`: serialises a record to a JSON object. Note the key
for the `char_type` field is the literal string `"type"`. -/
def Character.to_dict (c : Character) : JObject :=
  [("id", JValue.jint c.id), ("name", JValue.jstr c.name),
   ("type", JValue.jstr c.type), ("health", JValue.jint c.health),
   ("attack", JValue.jint c.attack), ("image_url", JValue.jstr c.image_url)]

/-- The keyword-parameter names accepted by `Character.__init__`
(other than `self`). -/
def initParamNames : List String :=
  ["id", "name", "char_type", "health", "attack", "image_url"]

/-- `Character(**char)` as executed by `DataStorage.load`: binding a JSON
object's keys to `Character.__init__`'s keyword parameters. A key that is
not a parameter name raises `TypeError` (modelled as `Except.error`), as
does a missing required parameter. The Python object is untyped; this
model fixes each field at the type `save` writes for it, which is the only
shape a `save`d file can contain. -/
def characterFromKwargs (kw : JObject) : Except String Character :=
  match kw.find? (fun p => !(initParamNames.contains p.1)) with
  | some p => Except.error ("TypeError: unexpected keyword argument " ++ p.1)
  | none =>
    match kw.lookup "id", kw.lookup "name", kw.lookup "char_type",
          kw.lookup "health", kw.lookup "attack" with
    | some (JValue.jint i), some (JValue.jstr nm), some (JValue.jstr t),
      some (JValue.jint h), some (JValue.jint a) =>
      let img := match kw.lookup "image_url" with
        | some (JValue.jstr u) => u
        | _ => ""
      Except.ok ⟨i, nm, t, h, a, img⟩
    | _, _, _, _, _ => Except.error "TypeError: missing required argument"

namespace DataStorage

/-- `DataStorage.save` viewed as the file content it writes: the JSON array
`[char.to_dict() for char in self.characters]`. -/
def save (chars : List Character) : List JObject :=
  chars.map Character.to_dict

/-- `DataStorage.load` applied to an existing file holding the JSON array
`data`: `[Character(**char) for char in data]`; the first `TypeError`
propagates. -/
def load : List JObject → Except String (List Character)
  | [] => Except.ok []
  | o :: rest =>
    match characterFromKwargs o with
    | Except.error e => Except.error e
    | Except.ok c =>
      match load rest with
      | Except.error e => Except.error e
      | Except.ok cs => Except.ok (c :: cs)

end DataStorage

/-- The in-memory state of a `DataStorage`: its `characters` list. -/
structure Storage where
  characters : List Character
deriving Repr, DecidableEq

/-- `DataStorage.add_character`: append (the accompanying `save()` call is
persistence of this same list and does not change the in-memory state). -/
def Storage.add_character (s : Storage) (c : Character) : Storage :=
  ⟨s.characters ++ [c]⟩

/-- `DataStorage.get_all`. -/
def Storage.get_all (s : Storage) : List Character :=
  s.characters

/-- `DataStorage.get_by_id`: linear scan, first match, `None` if absent. -/
def Storage.get_by_id (s : Storage) (char_id : Int) : Option Character :=
  s.characters.find? (fun c => c.id == char_id)

/-- Python's `int(str)` on the inputs this program feeds it: strip
surrounding whitespace, optional sign, then decimal digits; anything else
raises `ValueError` (modelled as `none`). -/
def pyInt (s : String) : Option Int :=
  match (s.data.dropWhile Char.isWhitespace).reverse.dropWhile Char.isWhitespace
    |>.reverse with
  | [] => none
  | ch :: rest =>
    let signed : Bool × List Char :=
      if ch = '-' then (true, rest)
      else if ch = '+' then (false, rest)
      else (false, ch :: rest)
    if signed.2 = [] then none
    else if signed.2.all Char.isDigit then
      let n : Nat := signed.2.foldl (fun a d => a * 10 + (d.toNat - 48)) 0
      some (if signed.1 then -(n : Int) else (n : Int))
    else none

/-- The five interactive answers `AddCommand.exec_command` reads, in prompt
order; `health` and `attack` are the raw strings fed to `int()`. -/
structure AddInput where
  name : String
  char_type : String
  health : String
  attack : String
  image_url : String
deriving Repr, DecidableEq

/-- An add input is valid when both integer fields parse. -/
def AddInput.valid (inp : AddInput) : Bool :=
  (pyInt inp.health).isSome && (pyInt inp.attack).isSome

/-- The `Character` that `AddCommand` builds from a valid input when the
store currently holds `len` records: `char_id = len(storage.get_all()) + 1`. -/
def mkChar (inp : AddInput) (len : Nat) : Character :=
  ⟨(len : Int) + 1, inp.name, inp.char_type,
   (pyInt inp.health).getD 0, (pyInt inp.attack).getD 0, inp.image_url⟩

namespace AddCommand

/-- `AddCommand.exec_command`: parse `health` then `attack` (a failure
raises out of the command with no store mutation), assign
`char_id = len(storage.get_all()) + 1`, build the record, append and save.
Returns the mutated store and the created record. -/
def exec (inp : AddInput) (s : Storage) : Except String (Storage × Character) :=
  match pyInt inp.health with
  | none => Except.error "ValueError: invalid literal for int"
  | some h =>
    match pyInt inp.attack with
    | none => Except.error "ValueError: invalid literal for int"
    | some a =>
      let char_id : Int := (s.get_all.length : Int) + 1
      let c : Character := ⟨char_id, inp.name, inp.char_type, h, a, inp.image_url⟩
      Except.ok (s.add_character c, c)

end AddCommand

/-- A sequence of `add` commands run back to back; the first failure
propagates (as it would to the CLI loop). -/
def addMany : List AddInput → Storage → Except String Storage
  | [], s => Except.ok s
  | inp :: rest, s =>
    match AddCommand.exec inp s with
    | Except.error e => Except.error e
    | Except.ok (s', _) => addMany rest s'

/-- The records a run of valid adds creates, when the store holds `len`
records at the start: the k-th gets id `len + k + 1`. -/
def addedChars : List AddInput → Nat → List Character
  | [], _ => []
  | inp :: rest, len => mkChar inp len :: addedChars rest (len + 1)

namespace ShowCommand

/-- `ShowCommand.exec_command`: no argument renders a usage line and
returns; otherwise `int(args[0])` (a parse failure raises out of the
command), then `get_by_id`; found renders the detail lines, absent renders
a not-found line. The result is the list of rendered lines. -/
def exec (args : List String) (s : Storage) : Except String (List String) :=
  match args with
  | [] => Except.ok ["Помилка: вкажіть ID персонажа"]
  | a :: _ =>
    match pyInt a with
    | none => Except.error "ValueError: invalid literal for int"
    | some i =>
      match s.get_by_id i with
      | some c =>
        Except.ok
          (["=== " ++ c.name ++ " ===", "ID", "Тип", "Здоровʼя", "Атака"] ++
           (if c.image_url ≠ "" then ["Зображення"] else []))
      | none => Except.ok ["Персонаж не знайдений"]

end ShowCommand

namespace CLI

/-- The `try/except` body of `CLI.run` around one command execution:
a raised exception is caught, rendered as an error line, and the loop
continues (`true` = continue looping). -/
def runStep (r : Except String (List String)) : List String × Bool :=
  match r with
  | Except.ok out => (out, true)
  | Except.error e => (["Помилка: " ++ e], true)

end CLI

/-- One registered command strategy, abstracted to what dispatch sees: its
selector list and an identifying tag. -/
structure CommandEntry where
  selectors : List String
  tag : String
deriving Repr, DecidableEq

/-- The `for cmd_strategy in self.commands` scan of `CLI.exec_command`:
first entry whose selector list contains the command word. -/
def registryScan (cmds : List CommandEntry) (word : String) : Option CommandEntry :=
  cmds.find? (fun c => c.selectors.contains word)

/-- Outcome of `CLI.exec_command` on one command word. -/
inductive DispatchResult where
  | stop
  | handled (c : CommandEntry)
  | unknown
deriving Repr, DecidableEq

/-- `CLI.exec_command` on a non-empty input line whose first token is
`word`: `exit`/`quit` stop the loop before the registry is consulted;
otherwise the registry is scanned in registration order and the first
match is invoked; no match renders the unknown-command line. -/
def CLI.execDispatch (cmds : List CommandEntry) (word : String) : DispatchResult :=
  if word = "exit" ∨ word = "quit" then DispatchResult.stop
  else
    match registryScan cmds word with
    | some c => DispatchResult.handled c
    | none => DispatchResult.unknown

/-- `max([c.id for c in storage.get_all()], default=0)`: the maximum of the
existing ids, `0` only when the store is empty (Python's `default` is not a
floor, so a negative maximum is returned as-is). -/
def maxId (s : Storage) : Int :=
  match s.characters.map Character.id with
  | [] => 0
  | x :: xs => xs.foldl max x

/-- The count the import uses: `int(input(...))` then
`count = min(count, len(character_names))`, both inside one `try`; if the
parse raises (`countInput = none`) the `except` sets `count = 5` with no
clamping. -/
def chooseCount (countInput : Option Int) (available : Nat) : Int :=
  match countInput with
  | some c => min c (available : Int)
  | none => 5

/-- Python's `xs[:stop]` for an `int` `stop`: a non-negative stop takes at
most `stop` elements; a negative stop drops the last `|stop|` elements
(empty when `|stop| ≥ len(xs)`). -/
def pySliceTo {α : Type} (stop : Int) (xs : List α) : List α :=
  if stop < 0 then xs.take (xs.length - stop.natAbs)
  else xs.take stop.toNat

/-- The id-independent payload of a fetched character detail, as the
parser extracts it. -/
structure CharacterDetail where
  name : String
  char_type : String
  health : Int
  attack : Int
  image_url : String
deriving Repr, DecidableEq

/-- Modelled from the spec: `GenshinCharacterParser.parse_to_character`
lives in the external `api_client` module, absent from the sources; per
the spec it is the conversion function `detail, assignedId -> Record`,
producing the Record that carries the assigned id and the detail's
fields. -/
def parse_to_character (d : CharacterDetail) (assignedId : Int) : Character :=
  ⟨assignedId, d.name, d.char_type, d.health, d.attack, d.image_url⟩

/-- The detail-fetch collaborator
`api_client.get_character_details(name)`: `none` models a fetch that
returned no detail (not-found / transient failure). -/
abbrev Fetch := String → Option CharacterDetail

/-- The records the import loop appends to the store:
`for i, name in enumerate(character_names[:count])`, the record built from
a successful fetch of the name at batch index `i` gets id `base + i + 1`;
a failed fetch contributes nothing but still advances `i`. -/
def importedRecords (fetch : Fetch) (base : Int) : List String → Nat → List Character
  | [], _ => []
  | n :: rest, i =>
    match fetch n with
    | some d => parse_to_character d (base + (i : Int) + 1) :: importedRecords fetch base rest (i + 1)
    | none => importedRecords fetch base rest (i + 1)

/-- The per-item progress lines, one per batch element, rendered before
each fetch attempt: the triple is (1-based index `i + 1`, the denominator
`count` as chosen, the name). -/
def progressOf (count : Int) : List String → Nat → List (Nat × Int × String)
  | [], _ => []
  | n :: rest, i => (i + 1, count, n) :: progressOf count rest (i + 1)

/-- What `ImportCommand.exec_command` reports: either the early abort with
its failure line (empty name list, no store mutation), or completion with
the final `imported` counter and the progress lines. -/
inductive ImportReport where
  | aborted (msg : String)
  | done (imported : Nat) (progress : List (Nat × Int × String))
deriving Repr, DecidableEq

namespace ImportCommand

/-- The `for i, name in enumerate(...)` loop of `ImportCommand`:
threads the store and the `imported` counter over the batch, collecting the
progress triples; `base` is `current_max_id`, computed once before the
loop. -/
def loop (fetch : Fetch) (base count : Int) :
    List String → Nat → Storage → Nat → Storage × Nat × List (Nat × Int × String)
  | [], _, s, imp => (s, imp, [])
  | n :: rest, i, s, imp =>
    let next : Storage × Nat :=
      match fetch n with
      | some d => (s.add_character (parse_to_character d (base + (i : Int) + 1)), imp + 1)
      | none => (s, imp)
    let r := loop fetch base count rest (i + 1) next.1 next.2
    (r.1, r.2.1, (i + 1, count, n) :: r.2.2)

/-- `ImportCommand.exec_command`: abort on an empty name list; otherwise
choose the count, slice the batch `character_names[:count]`, compute
`current_max_id`, run the loop, and report the final imported counter.
Returns the (possibly mutated) store alongside the report. -/
def exec (names : List String) (countInput : Option Int) (fetch : Fetch)
    (s : Storage) : Storage × ImportReport :=
  if names.isEmpty then (s, ImportReport.aborted "❌ Не вдалося завантажити персонажів")
  else
    let count := chooseCount countInput names.length
    let batch := pySliceTo count names
    let r := loop fetch (maxId s) count batch 0 s 0
    (r.1, ImportReport.done r.2.1 r.2.2)

end ImportCommand

/-- The consecutive id run `start, start + 1, …, start + n - 1`, used to
state which ids an all-successful import batch receives. -/
def idsFrom (start : Int) : Nat → List Int
  | 0 => []
  | n + 1 => start :: idsFrom (start + 1) n

/-- The batch `character_names[:count]` the import loop iterates over,
given the listing result and the (possibly failed) count input. -/
def importBatch (names : List String) (countInput : Option Int) : List String :=
  pySliceTo (chooseCount countInput names.length) names

/-- The final `imported` counter of a report (`0` for the aborted case,
where nothing was imported). -/
def ImportReport.importedCount : ImportReport → Nat
  | ImportReport.aborted _ => 0
  | ImportReport.done imp _ => imp

/-! ### Helper lemmas -/

/-- On a valid input, `AddCommand.exec` succeeds, appending exactly the
record `mkChar inp len` with `len` the current store size. -/
lemma AddCommand.exec_of_valid (inp : AddInput) (s : Storage)
    (hv : inp.valid = true) :
    AddCommand.exec inp s =
      Except.ok (⟨s.characters ++ [mkChar inp s.characters.length]⟩,
        mkChar inp s.characters.length) := by
  unfold AddInput.valid at hv
  rcases h1 : pyInt inp.health with _ | h
  · rw [h1] at hv; simp at hv
  rcases h2 : pyInt inp.attack with _ | a
  · rw [h1, h2] at hv; simp at hv
  simp [AddCommand.exec, h1, h2, mkChar, Storage.add_character, Storage.get_all]

/-- A run of valid adds succeeds and appends exactly the records
`addedChars`. -/
lemma addMany_of_valid : ∀ (inps : List AddInput) (s : Storage),
    (∀ i ∈ inps, i.valid = true) →
    addMany inps s = Except.ok ⟨s.characters ++ addedChars inps s.characters.length⟩
  | [], s, _ => by simp [addMany, addedChars]
  | inp :: rest, s, hv => by
    have hhd : inp.valid = true := hv inp (by simp)
    have htl : ∀ i ∈ rest, i.valid = true := fun i hi => hv i (by simp [hi])
    rw [addMany, AddCommand.exec_of_valid inp s hhd]
    dsimp only
    rw [addMany_of_valid rest ⟨s.characters ++ [mkChar inp s.characters.length]⟩ htl]
    simp [addedChars, List.append_assoc]

/-- `addedChars` creates one record per input. -/
lemma addedChars_length : ∀ (inps : List AddInput) (L : Nat),
    (addedChars inps L).length = inps.length
  | [], _ => rfl
  | _ :: rest, L => by simp [addedChars, addedChars_length rest (L + 1)]

/-- The k-th record of a valid run has id `L + k + 1`, and a linear scan
of the created records for that id finds exactly it. -/
lemma addedChars_elem_find : ∀ (inps : List AddInput) (L k : Nat), k < inps.length →
    ∃ c : Character, (addedChars inps L)[k]? = some c ∧
      c.id = (L : Int) + (k : Int) + 1 ∧
      (addedChars inps L).find? (fun x => x.id == (L : Int) + (k : Int) + 1) = some c
  | [], _, k, hk => absurd hk (by simp)
  | inp :: rest, L, 0, _ => by
    refine ⟨mkChar inp L, by simp [addedChars], by simp [mkChar], ?_⟩
    rw [addedChars]
    apply List.find?_cons_of_pos
    simp [mkChar]
  | inp :: rest, L, k + 1, hk => by
    have hk' : k < rest.length := by
      simpa [List.length_cons] using Nat.lt_of_succ_lt_succ hk
    obtain ⟨c, hget, hid, hfind⟩ := addedChars_elem_find rest (L + 1) k hk'
    have harith : (L : Int) + ((k : Nat) + 1 : Nat) + 1 = ((L + 1 : Nat) : Int) + (k : Int) + 1 := by
      push_cast; ring
    refine ⟨c, ?_, ?_, ?_⟩
    · simpa [addedChars] using hget
    · rw [hid, harith]
    · rw [addedChars, harith]
      rw [List.find?_cons_of_neg]
      · exact hfind
      · simp [mkChar]
        omega

/-- The import loop appends `importedRecords`, adds their number to the
counter, and renders one progress triple per batch element. -/
lemma ImportCommand.loop_eq (fetch : Fetch) (base count : Int) :
    ∀ (batch : List String) (i : Nat) (s : Storage) (imp : Nat),
    ImportCommand.loop fetch base count batch i s imp =
      (⟨s.characters ++ importedRecords fetch base batch i⟩,
       imp + (importedRecords fetch base batch i).length,
       progressOf count batch i)
  | [], i, s, imp => by simp [ImportCommand.loop, importedRecords, progressOf]
  | n :: rest, i, s, imp => by
    rcases hf : fetch n with _ | d
    · simp only [ImportCommand.loop, hf]
      rw [ImportCommand.loop_eq fetch base count rest (i + 1) s imp]
      simp [importedRecords, progressOf, hf]
    · simp only [ImportCommand.loop, hf]
      rw [ImportCommand.loop_eq fetch base count rest (i + 1)
        (s.add_character (parse_to_character d (base + (i : Int) + 1))) (imp + 1)]
      simp [importedRecords, progressOf, hf, Storage.add_character, List.append_assoc]
      omega

/-- One record per successful fetch. -/
lemma importedRecords_length (fetch : Fetch) (base : Int) :
    ∀ (batch : List String) (i : Nat),
    (importedRecords fetch base batch i).length =
      batch.countP (fun n => (fetch n).isSome)
  | [], _ => by simp [importedRecords]
  | n :: rest, i => by
    rcases hf : fetch n with _ | d <;>
      simp [importedRecords, hf, importedRecords_length fetch base rest (i + 1),
        List.countP_cons]

/-- One progress triple per batch element. -/
lemma progressOf_length (count : Int) :
    ∀ (batch : List String) (i : Nat),
    (progressOf count batch i).length = batch.length
  | [], _ => rfl
  | _ :: rest, i => by simp [progressOf, progressOf_length count rest (i + 1)]

/-- Every progress triple carries the chosen count as its denominator. -/
lemma progressOf_denominator (count : Int) :
    ∀ (batch : List String) (i : Nat),
    ∀ p ∈ progressOf count batch i, p.2.1 = count
  | [], _ => by simp [progressOf]
  | n :: rest, i => by
    intro p hp
    rcases (by simpa [progressOf] using hp : p = (i + 1, count, n) ∨ p ∈ progressOf count rest (i + 1)) with h | h
    · rw [h]
    · exact progressOf_denominator count rest (i + 1) p h

/-- A successful fetch at batch position `j` contributes the record built
with assigned id `base + i + j + 1` (where `i` is the loop's starting
index). -/
lemma importedRecords_mem (fetch : Fetch) (base : Int) :
    ∀ (batch : List String) (i j : Nat) (hj : j < batch.length) (d : CharacterDetail),
    fetch (batch.get ⟨j, hj⟩) = some d →
    parse_to_character d (base + (i : Int) + (j : Int) + 1) ∈
      importedRecords fetch base batch i
  | [], _, j, hj, _ => absurd hj (by simp)
  | n :: rest, i, 0, _, d => by
    intro hf
    simp only [List.get] at hf
    simp [importedRecords, hf]
  | n :: rest, i, j + 1, hj, d => by
    intro hf
    have hj' : j < rest.length := by
      simpa [List.length_cons] using Nat.lt_of_succ_lt_succ hj
    have hmem := importedRecords_mem fetch base rest (i + 1) j hj' d
      (by simpa [List.get] using hf)
    have harith : base + ((i + 1 : Nat) : Int) + (j : Int) + 1
        = base + (i : Int) + ((j + 1 : Nat) : Int) + 1 := by push_cast; ring
    rw [harith] at hmem
    rcases hf2 : fetch n with _ | d2
    · simpa [importedRecords, hf2] using hmem
    · simp only [importedRecords, hf2, List.mem_cons]
      exact Or.inr hmem

/-- When every fetch in the batch succeeds, the assigned ids are the
consecutive run `base + i + 1, …, base + i + batch.length`. -/
lemma importedRecords_ids_of_all_success (fetch : Fetch) (base : Int) :
    ∀ (batch : List String) (i : Nat),
    (∀ n ∈ batch, (fetch n).isSome = true) →
    (importedRecords fetch base batch i).map Character.id =
      idsFrom (base + (i : Int) + 1) batch.length
  | [], _, _ => by simp [importedRecords, idsFrom]
  | n :: rest, i, hall => by
    rcases hf : fetch n with _ | d
    · have := hall n (by simp)
      rw [hf] at this; simp at this
    · have ih := importedRecords_ids_of_all_success fetch base rest (i + 1)
        (fun m hm => hall m (by simp [hm]))
      simp only [importedRecords, hf, List.map_cons, parse_to_character,
        List.length_cons, idsFrom]
      rw [ih]
      have : base + ((i + 1 : Nat) : Int) + 1 = base + (i : Int) + 1 + 1 := by
        push_cast; ring
      rw [this]

/-- Batches are never longer than the listing. -/
lemma pySliceTo_length_le {α : Type} (stop : Int) (xs : List α) :
    (pySliceTo stop xs).length ≤ xs.length := by
  unfold pySliceTo
  split <;> simp [List.length_take]

/-- First-match semantics of the registry scan: if position `i` matches
and no earlier position does, the scan returns the `i`-th entry. -/
lemma registryScan_first : ∀ (cmds : List CommandEntry) (w : String) (i : Nat)
    (hi : i < cmds.length),
    (cmds.get ⟨i, hi⟩).selectors.contains w = true →
    (∀ k (hk : k < i), (cmds.get ⟨k, hk.trans hi⟩).selectors.contains w = false) →
    registryScan cmds w = some (cmds.get ⟨i, hi⟩)
  | [], _, i, hi => absurd hi (by simp)
  | c :: rest, w, 0, hi => by
    intro hmem _
    simp only [List.get] at hmem ⊢
    unfold registryScan
    exact List.find?_cons_of_pos rest hmem
  | c :: rest, w, i + 1, hi => by
    intro hmem hfirst
    have hi' : i < rest.length := by
      simpa [List.length_cons] using Nat.lt_of_succ_lt_succ hi
    have hhead : c.selectors.contains w = false := by
      have := hfirst 0 (Nat.succ_pos i)
      simpa [List.get] using this
    have ih := registryScan_first rest w i hi'
      (by simpa [List.get] using hmem)
      (fun k hk => by
        have := hfirst (k + 1) (Nat.succ_lt_succ hk)
        simpa [List.get] using this)
    unfold registryScan at ih ⊢
    rw [List.find?_cons_of_neg rest (by simpa using hhead)]
    simpa [List.get] using ih

/-- On a non-empty listing, `ImportCommand.exec` appends exactly the
records of the batch's successful fetches, reports their number, and
renders one progress triple per batch element. -/
lemma ImportCommand.exec_eq (names : List String) (ci : Option Int)
    (fetch : Fetch) (s : Storage) (h : names ≠ []) :
    ImportCommand.exec names ci fetch s =
      (⟨s.characters ++ importedRecords fetch (maxId s) (importBatch names ci) 0⟩,
       ImportReport.done
         ((importBatch names ci).countP (fun n => (fetch n).isSome))
         (progressOf (chooseCount ci names.length) (importBatch names ci) 0)) := by
  unfold ImportCommand.exec
  rw [if_neg (by simpa [List.isEmpty_iff] using h)]
  dsimp only
  rw [ImportCommand.loop_eq]
  simp [importBatch, importedRecords_length]

/-! ### Claim theorems -/

/-- C1: the round-trip claim fails on the code — this is a slip in the
source, not in the spec. `save()` writes each record with key `"type"`
(from `Character.to_dict`), but `load()` rebuilds records with
`Character(**char)` whose constructor parameter is named `char_type`;
binding therefore raises `TypeError: unexpected keyword argument`, so
`load()` fails on every non-empty file that `save()` wrote, instead of
reproducing the saved sequence. -/
theorem load_after_save_raises (c : Character) (rest : List Character) :
    DataStorage.load (DataStorage.save (c :: rest)) =
      Except.error "TypeError: unexpected keyword argument type" := by
  simp [DataStorage.load, DataStorage.save, characterFromKwargs,
    Character.to_dict, initParamNames, List.find?]

/-- C5: when the collaborator's name listing comes back empty, the import
command renders its failure line and aborts with the store untouched. -/
theorem import_empty_listing_aborts (names : List String) (ci : Option Int)
    (fetch : Fetch) (s : Storage) (h : names = []) :
    ImportCommand.exec names ci fetch s =
      (s, ImportReport.aborted "❌ Не вдалося завантажити персонажів") := by
  subst h
  rfl

/-- C5 witness: a concrete aborted import mutates nothing. -/
theorem import_empty_listing_aborts_witness :
    ImportCommand.exec [] none (fun _ => none) ⟨[⟨1, "a", "t", 2, 3, ""⟩]⟩ =
      (⟨[⟨1, "a", "t", 2, 3, ""⟩]⟩,
       ImportReport.aborted "❌ Не вдалося завантажити персонажів") :=
  import_empty_listing_aborts [] none (fun _ => none) ⟨[⟨1, "a", "t", 2, 3, ""⟩]⟩ rfl

/-- C6: a failed parse of the count prompt defaults the count to 5; a
parsed count is clamped to the number of available names; hence the batch
never exceeds the listing, and at most `names.length` records are
imported. -/
theorem import_count_default_and_clamp (names : List String) (ci : Option Int)
    (fetch : Fetch) (s : Storage) :
    chooseCount none names.length = 5 ∧
    (∀ c : Int, chooseCount (some c) names.length ≤ (names.length : Int)) ∧
    (importBatch names ci).length ≤ names.length ∧
    (ImportCommand.exec names ci fetch s).2.importedCount ≤ names.length := by
  refine ⟨rfl, fun c => min_le_right c _, pySliceTo_length_le _ _, ?_⟩
  rcases hne : names with _ | ⟨n, rest⟩
  · simp [ImportCommand.exec, ImportReport.importedCount]
  · rw [← hne, ImportCommand.exec_eq names ci fetch s (by rw [hne]; simp)]
    calc (importBatch names ci).countP (fun n => (fetch n).isSome)
        ≤ (importBatch names ci).length := List.countP_le_length _
      _ ≤ names.length := pySliceTo_length_le _ _

/-- C8: `show` with no argument renders the usage line and does not raise;
with a numeric argument matching no record it renders the not-found line
and does not raise; with a non-numeric argument it raises, and the loop's
`except` handler renders the error line and keeps the loop running. -/
theorem show_command_errors (s : Storage) (a : String) :
    ShowCommand.exec [] s = Except.ok ["Помилка: вкажіть ID персонажа"] ∧
    (∀ i : Int, pyInt a = some i → s.get_by_id i = none →
      ShowCommand.exec [a] s = Except.ok ["Персонаж не знайдений"]) ∧
    (pyInt a = none →
      ShowCommand.exec [a] s = Except.error "ValueError: invalid literal for int" ∧
      CLI.runStep (ShowCommand.exec [a] s) =
        (["Помилка: " ++ "ValueError: invalid literal for int"], true)) := by
  refine ⟨rfl, ?_, ?_⟩
  · intro i hp hn
    simp [ShowCommand.exec, hp, hn]
  · intro hp
    constructor
    · simp [ShowCommand.exec, hp]
    · simp [ShowCommand.exec, hp, CLI.runStep]

/-- C8 witness: the three behaviours at concrete inputs. -/
theorem show_command_errors_witness :
    ShowCommand.exec ["7"] ⟨[]⟩ = Except.ok ["Персонаж не знайдений"] ∧
    ShowCommand.exec ["abc"] ⟨[]⟩ = Except.error "ValueError: invalid literal for int" :=
  ⟨(show_command_errors ⟨[]⟩ "7").2.1 7 (by decide) (by decide),
   ((show_command_errors ⟨[]⟩ "abc").2.2 (by decide)).1⟩

/-- C9: on a command word that is not `exit`/`quit`, the dispatcher scans
the registry in registration order and invokes the first entry whose
selector list contains the word; in particular, when a later entry
declares an overlapping selector, the earlier-registered entry handles the
input and the later one is never invoked. -/
theorem dispatch_first_match (cmds : List CommandEntry) (w : String) (i : Nat)
    (hi : i < cmds.length)
    (hexit : w ≠ "exit" ∧ w ≠ "quit")
    (hmem : (cmds.get ⟨i, hi⟩).selectors.contains w = true)
    (hfirst : ∀ k (hk : k < i), (cmds.get ⟨k, hk.trans hi⟩).selectors.contains w = false) :
    CLI.execDispatch cmds w = DispatchResult.handled (cmds.get ⟨i, hi⟩) := by
  unfold CLI.execDispatch
  rw [if_neg (by simp [hexit.1, hexit.2])]
  rw [registryScan_first cmds w i hi hmem hfirst]

/-- C9 witness: two registered entries overlap on selector `"x"`; the
first-registered one handles the input. -/
theorem dispatch_first_match_witness :
    CLI.execDispatch [⟨["list", "x"], "first"⟩, ⟨["x"], "second"⟩] "x" =
      DispatchResult.handled ⟨["list", "x"], "first"⟩ :=
  dispatch_first_match [⟨["list", "x"], "first"⟩, ⟨["x"], "second"⟩] "x" 0
    (by decide) (by decide) (by decide)
    (fun k hk => absurd hk (Nat.not_lt_zero k))

/-- A fetch collaborator that only knows the name `"b"`; used to exhibit
the id gap a skipped name leaves. -/
def fetchOnlyB : Fetch := fun n =>
  if n = "b" then some ⟨"b", "t", 1, 1, ""⟩ else none

/-- C2 counterexample: on the empty store (`M = 0`), importing from the
listing `["a", "b"]` with batch size 2 where the fetch of `"a"` fails and
the fetch of `"b"` succeeds yields exactly one new record — and its id is
`2`, not `M + 1 = 1`: the failed fetch consumed id slot `1`. -/
theorem import_id_gap_counterexample :
    (ImportCommand.exec ["a", "b"] (some 2) fetchOnlyB ⟨[]⟩).1.characters.map Character.id
      = [2] ∧
    ¬((ImportCommand.exec ["a", "b"] (some 2) fetchOnlyB ⟨[]⟩).1.characters.map Character.id
      = [1]) := by
  constructor
  · decide
  · decide

/-- C2 (amended): import assigns ids positionally. With `M = maxId` of the
store at batch start, the record created for the name at 0-indexed batch
position `j` gets id `M + j + 1`; a failed fetch consumes its id slot, so
when every fetch of an `N`-element batch succeeds the new records get ids
`M + 1, …, M + N` in listing order, while a success after a skip keeps its
positional id, leaving a gap at each skipped position. -/
theorem import_id_assignment (names : List String) (ci : Option Int)
    (fetch : Fetch) (s : Storage) :
    (ImportCommand.exec names ci fetch s).1.characters
      = s.characters ++ importedRecords fetch (maxId s) (importBatch names ci) 0 ∧
    (∀ (j : Nat) (hj : j < (importBatch names ci).length) (d : CharacterDetail),
      fetch ((importBatch names ci).get ⟨j, hj⟩) = some d →
      parse_to_character d (maxId s + (j : Int) + 1)
        ∈ (ImportCommand.exec names ci fetch s).1.characters) ∧
    ((∀ n ∈ importBatch names ci, (fetch n).isSome = true) →
      (importedRecords fetch (maxId s) (importBatch names ci) 0).map Character.id
        = idsFrom (maxId s + 1) (importBatch names ci).length) := by
  have hchars : (ImportCommand.exec names ci fetch s).1.characters
      = s.characters ++ importedRecords fetch (maxId s) (importBatch names ci) 0 := by
    rcases hne : names with _ | ⟨n, rest⟩
    · simp [ImportCommand.exec, importBatch, pySliceTo, importedRecords]
    · rw [← hne, ImportCommand.exec_eq names ci fetch s (by rw [hne]; simp)]
  refine ⟨hchars, ?_, ?_⟩
  · intro j hj d hf
    rw [hchars]
    have hmem := importedRecords_mem fetch (maxId s) (importBatch names ci) 0 j hj d hf
    have : maxId s + ((0 : Nat) : Int) + (j : Int) + 1 = maxId s + (j : Int) + 1 := by
      push_cast; ring
    rw [this] at hmem
    exact List.mem_append_right _ hmem
  · intro hall
    have h := importedRecords_ids_of_all_success fetch (maxId s) (importBatch names ci) 0 hall
    have : maxId s + ((0 : Nat) : Int) + 1 = maxId s + 1 := by push_cast; ring
    rw [this] at h
    exact h

/-- C2 witness: a fully successful batch of one from the empty store
assigns id `M + 1 = 1`somewhere and the id list is the run starting at 1. -/
theorem import_id_assignment_witness :
    parse_to_character ⟨"x", "t", 1, 1, ""⟩ (maxId ⟨[]⟩ + ((0 : Nat) : Int) + 1)
      ∈ (ImportCommand.exec ["x"] (some 1) (fun _ => some ⟨"x", "t", 1, 1, ""⟩) ⟨[]⟩).1.characters ∧
    (importedRecords (fun _ => some ⟨"x", "t", 1, 1, ""⟩) (maxId ⟨[]⟩)
        (importBatch ["x"] (some 1)) 0).map Character.id
      = idsFrom (maxId ⟨[]⟩ + 1) (importBatch ["x"] (some 1)).length :=
  ⟨(import_id_assignment ["x"] (some 1) (fun _ => some ⟨"x", "t", 1, 1, ""⟩) ⟨[]⟩).2.1
      0 (by decide) ⟨"x", "t", 1, 1, ""⟩ (by decide),
   (import_id_assignment ["x"] (some 1) (fun _ => some ⟨"x", "t", 1, 1, ""⟩) ⟨[]⟩).2.2
      (by decide)⟩

/-- C3 counterexample: on an initial store already holding a record with
id `2`, one valid `add` assigns the new record id `len + 1 = 2`, and
`get_by_id 2` returns the pre-existing record (first match of the linear
scan), not the added one — so the added record is not retrievable by its
assigned id. -/
theorem add_retrieval_counterexample :
    AddCommand.exec ⟨"new", "t", "10", "20", ""⟩ ⟨[⟨2, "old", "t", 5, 5, ""⟩]⟩
      = Except.ok (⟨[⟨2, "old", "t", 5, 5, ""⟩, ⟨2, "new", "t", 10, 20, ""⟩]⟩,
          ⟨2, "new", "t", 10, 20, ""⟩) ∧
    Storage.get_by_id ⟨[⟨2, "old", "t", 5, 5, ""⟩, ⟨2, "new", "t", 10, 20, ""⟩]⟩ 2
      = some ⟨2, "old", "t", 5, 5, ""⟩ ∧
    (⟨2, "old", "t", 5, 5, ""⟩ : Character) ≠ ⟨2, "new", "t", 10, 20, ""⟩ := by
  refine ⟨rfl, by decide, by decide⟩

/-- C3 (amended): for every sequence of valid adds starting from an
initial store none of whose records carries an id in the assigned range
`L + 1 … L + n` (with `L` the initial length and `n` the number of adds —
in particular from the empty store), the run succeeds, the final length is
`L + n`, and each added record is retrievable by its assigned id
`L + k + 1` via `get_by_id`. -/
theorem addMany_length_and_getById (inps : List AddInput) (s : Storage)
    (hv : ∀ i ∈ inps, i.valid = true)
    (hfresh : ∀ c ∈ s.characters, ∀ k : Nat, k < inps.length →
      c.id ≠ (s.characters.length : Int) + (k : Int) + 1) :
    ∃ s', addMany inps s = Except.ok s' ∧
      s'.characters.length = s.characters.length + inps.length ∧
      ∀ k : Nat, k < inps.length → ∃ c : Character,
        (addedChars inps s.characters.length)[k]? = some c ∧
        c.id = (s.characters.length : Int) + (k : Int) + 1 ∧
        s'.get_by_id c.id = some c := by
  refine ⟨⟨s.characters ++ addedChars inps s.characters.length⟩,
    addMany_of_valid inps s hv, ?_, ?_⟩
  · simp [List.length_append, addedChars_length]
  · intro k hk
    obtain ⟨c, hget, hid, hfind⟩ := addedChars_elem_find inps s.characters.length k hk
    refine ⟨c, hget, hid, ?_⟩
    unfold Storage.get_by_id
    rw [hid]
    rw [List.find?_append]
    have hnone : s.characters.find?
        (fun x => x.id == (s.characters.length : Int) + (k : Int) + 1) = none := by
      rw [List.find?_eq_none]
      intro x hx
      simpa using hfresh x hx k hk
    rw [hnone, Option.none_or]
    exact hfind

/-- C3 witness: two valid adds on the empty store; each added record is
found by its assigned id. -/
theorem addMany_length_and_getById_witness :
    ∃ s', addMany [⟨"a", "t", "1", "2", ""⟩, ⟨"b", "t", "3", "4", ""⟩] ⟨[]⟩ = Except.ok s' ∧
      s'.characters.length = (⟨[]⟩ : Storage).characters.length + 2 ∧
      ∀ k : Nat, k < ([⟨"a", "t", "1", "2", ""⟩, ⟨"b", "t", "3", "4", ""⟩] : List AddInput).length →
        ∃ c : Character,
        (addedChars [⟨"a", "t", "1", "2", ""⟩, ⟨"b", "t", "3", "4", ""⟩]
          (⟨[]⟩ : Storage).characters.length)[k]? = some c ∧
        c.id = ((⟨[]⟩ : Storage).characters.length : Int) + (k : Int) + 1 ∧
        s'.get_by_id c.id = some c :=
  addMany_length_and_getById [⟨"a", "t", "1", "2", ""⟩, ⟨"b", "t", "3", "4", ""⟩] ⟨[]⟩
    (by decide) (by intro c hc; simp at hc)

/-- C4: `add` assigns the new record the id `count(existing records) + 1`
at the time of the call, and three valid adds on the empty store produce
ids `1, 2, 3` whatever the field contents. -/
theorem add_id_count_plus_one (inp : AddInput) (s s' : Storage) (c : Character)
    (i1 i2 i3 : AddInput) :
    (AddCommand.exec inp s = Except.ok (s', c) →
      c.id = (s.get_all.length : Int) + 1) ∧
    (i1.valid = true → i2.valid = true → i3.valid = true →
      ∃ s3, addMany [i1, i2, i3] ⟨[]⟩ = Except.ok s3 ∧
        s3.characters.map Character.id = [1, 2, 3]) := by
  constructor
  · intro h
    rcases h1 : pyInt inp.health with _ | hh
    · simp [AddCommand.exec, h1] at h
    rcases h2 : pyInt inp.attack with _ | ha
    · simp [AddCommand.exec, h1, h2] at h
    simp only [AddCommand.exec, h1, h2, Except.ok.injEq, Prod.mk.injEq] at h
    rw [← h.2]
  · intro v1 v2 v3
    refine ⟨⟨[] ++ addedChars [i1, i2, i3] 0⟩, ?_, ?_⟩
    · have := addMany_of_valid [i1, i2, i3] ⟨[]⟩ (by
        intro i hi
        simp only [List.mem_cons, List.not_mem_nil, or_false] at hi
        rcases hi with h | h | h
        · rw [h]; exact v1
        · rw [h]; exact v2
        · rw [h]; exact v3)
      simpa using this
    · simp [addedChars, mkChar]

/-- C4 witness: the general id law at a concrete call, and the concrete
three-add run with ids `1, 2, 3`. -/
theorem add_id_count_plus_one_witness :
    Character.id ⟨1, "n", "t", 1, 2, ""⟩ = (((⟨[]⟩ : Storage).get_all.length : Int) + 1) ∧
    ∃ s3, addMany [⟨"a", "t", "1", "2", "u"⟩, ⟨"b", "t", "3", "4", ""⟩,
        ⟨"c", "t", "5", "6", ""⟩] ⟨[]⟩ = Except.ok s3 ∧
      s3.characters.map Character.id = [1, 2, 3] :=
  ⟨(add_id_count_plus_one ⟨"n", "t", "1", "2", ""⟩ ⟨[]⟩
      ⟨[⟨1, "n", "t", 1, 2, ""⟩]⟩ ⟨1, "n", "t", 1, 2, ""⟩
      ⟨"a", "t", "1", "2", "u"⟩ ⟨"b", "t", "3", "4", ""⟩ ⟨"c", "t", "5", "6", ""⟩).1 rfl,
   (add_id_count_plus_one ⟨"n", "t", "1", "2", ""⟩ ⟨[]⟩
      ⟨[⟨1, "n", "t", 1, 2, ""⟩]⟩ ⟨1, "n", "t", 1, 2, ""⟩
      ⟨"a", "t", "1", "2", "u"⟩ ⟨"b", "t", "3", "4", ""⟩ ⟨"c", "t", "5", "6", ""⟩).2
      (by decide) (by decide) (by decide)⟩

/-- C7: on a non-empty listing, the import command processes the whole
batch even when individual fetches fail: a failed fetch adds nothing to
the store and does not increment the counter, the loop continues (one
progress line is rendered per batch element), and the final reported count
is the number of successful fetches, which the store grows by. -/
theorem import_partial_failure (names : List String) (ci : Option Int)
    (fetch : Fetch) (s : Storage) (h : names ≠ []) :
    ImportCommand.exec names ci fetch s =
      (⟨s.characters ++ importedRecords fetch (maxId s) (importBatch names ci) 0⟩,
       ImportReport.done
         ((importBatch names ci).countP (fun n => (fetch n).isSome))
         (progressOf (chooseCount ci names.length) (importBatch names ci) 0)) ∧
    (ImportCommand.exec names ci fetch s).1.characters.length
      = s.characters.length + (importBatch names ci).countP (fun n => (fetch n).isSome) ∧
    (progressOf (chooseCount ci names.length) (importBatch names ci) 0).length
      = (importBatch names ci).length := by
  have hx := ImportCommand.exec_eq names ci fetch s h
  refine ⟨hx, ?_, progressOf_length _ _ _⟩
  rw [hx]
  simp [List.length_append, importedRecords_length]

/-- A fetch collaborator that fails on `"a"` and succeeds elsewhere. -/
def fetchNotA : Fetch := fun n =>
  if n = "a" then none else some ⟨n, "t", 1, 1, ""⟩

/-- C7 witness: a two-name batch whose first fetch fails imports exactly
one record, renders two progress lines, and reports count 1. -/
theorem import_partial_failure_witness :
    ImportCommand.exec ["a", "b"] (some 2) fetchNotA ⟨[]⟩ =
      (⟨[⟨2, "b", "t", 1, 1, ""⟩]⟩,
       ImportReport.done 1 [(1, 2, "a"), (2, 2, "b")]) :=
  ((import_partial_failure ["a", "b"] (some 2) fetchNotA ⟨[]⟩ (by decide)).1).trans
    (by decide)

/-- C10: a negative parsed count `c` with `|c| < len(names)` survives the
`min` clamp unchanged, so the batch is the Python slice `names[:c]` — all
but the last `|c|` names, hence `len(names) - |c|` fetch attempts rather
than zero — and every rendered progress line shows the negative `c` itself
as its denominator. -/
theorem import_negative_count (names : List String) (c : Int) (fetch : Fetch)
    (s : Storage) (hneg : c < 0) (habs : c.natAbs < names.length) :
    chooseCount (some c) names.length = c ∧
    importBatch names (some c) = names.take (names.length - c.natAbs) ∧
    (importBatch names (some c)).length = names.length - c.natAbs ∧
    (ImportCommand.exec names (some c) fetch s).2 =
      ImportReport.done
        ((importBatch names (some c)).countP (fun n => (fetch n).isSome))
        (progressOf c (importBatch names (some c)) 0) ∧
    (∀ p ∈ progressOf c (importBatch names (some c)) 0, p.2.1 = c) := by
  have hcc : chooseCount (some c) names.length = c := by
    unfold chooseCount
    exact min_eq_left (by omega)
  have hbatch : importBatch names (some c) = names.take (names.length - c.natAbs) := by
    unfold importBatch
    rw [hcc]
    unfold pySliceTo
    rw [if_pos hneg]
  have hlen : (importBatch names (some c)).length = names.length - c.natAbs := by
    rw [hbatch, List.length_take]
    omega
  have hne : names ≠ [] := by
    apply List.ne_nil_of_length_pos
    omega
  refine ⟨hcc, hbatch, hlen, ?_, progressOf_denominator c _ _⟩
  rw [ImportCommand.exec_eq names (some c) fetch s hne, hcc]

/-- C10 witness: listing of three names, count input `-1`: the batch is
the first two names, both fetches are attempted with denominator `-1`,
none succeeds. -/
theorem import_negative_count_witness :
    chooseCount (some (-1)) (["a", "b", "c"] : List String).length = -1 ∧
    (importBatch ["a", "b", "c"] (some (-1))).length
      = (["a", "b", "c"] : List String).length - (-1 : Int).natAbs ∧
    (ImportCommand.exec ["a", "b", "c"] (some (-1)) (fun _ => none) ⟨[]⟩).2 =
      ImportReport.done 0 [(1, -1, "a"), (2, -1, "b")] :=
  ⟨(import_negative_count ["a", "b", "c"] (-1) (fun _ => none) ⟨[]⟩
      (by decide) (by decide)).1,
   (import_negative_count ["a", "b", "c"] (-1) (fun _ => none) ⟨[]⟩
      (by decide) (by decide)).2.2.1,
   ((import_negative_count ["a", "b", "c"] (-1) (fun _ => none) ⟨[]⟩
      (by decide) (by decide)).2.2.2.1).trans (by decide)⟩

end Practice14
